import Mathlib

/-!
Verification of the gitport access-control core.

The definitions below are a shallow embedding of the Go sources:
  pkg/auth/auth.go        (registry, AuthHandler, EnsureHostAdmin)
  pkg/server/server.go    (Hook.AuthRepo)
  pkg/logger/logger.go    (config, file-watch reload dispatch)
  the admin-console permission commands (cycleUserPerm)

The Go registry `map[string]User` is embedded as an association list with
first-match lookup; a Go map assignment replaces the matching entry or
appends a fresh one.  Disk and filesystem effects are passed explicitly:
file reads as `String -> Option String` maps, the success of a JSON save
as a `Bool`, and the parse outcome of the users file as a `FileRead`.
-/

namespace Gitport

/-- `auth.User`: `{Name string; Perm string}` with JSON keys name/perm. -/
structure User where
  name : String
  perm : String
deriving DecidableEq

/-- The in-memory registry `auth.Data : map[string]User`, embedded as an
association list from fingerprint strings to users (first match wins on
lookup, matching entries are overwritten on insert). -/
abbrev Registry := List (String × User)

/-- Go map lookup `Data[k]` returning the entry and its presence bit. -/
def lookupUser (data : Registry) (k : String) : Option User :=
  (data.find? (fun p => p.1 == k)).map (fun p => p.2)

/-- Go map assignment `Data[k] = u`: overwrite the entry for `k` when one
exists, otherwise add a fresh entry. -/
def insertUser (data : Registry) (k : String) (u : User) : Registry :=
  if data.any (fun p => p.1 == k) then
    data.map (fun p => if p.1 == k then (k, u) else p)
  else
    data ++ [(k, u)]

/-- Whether the map has an entry for key `k`. -/
def containsKey (data : Registry) (k : String) : Bool :=
  data.any (fun p => p.1 == k)

/-- The admin scan in `EnsureHostAdmin`: true iff some user has
`Perm == "admin"`. -/
def hasAdmin (data : Registry) : Bool :=
  data.any (fun p => p.2.perm == "admin")

/-! ### SSH keys and fingerprints -/

/-- The standard base64 alphabet used by `encoding/base64.StdEncoding`. -/
def b64Alphabet : List Char :=
  "ABCDEFGHIJKLMNOPQRSTUVWXYZabcdefghijklmnopqrstuvwxyz0123456789+/".toList

/-- Character of the standard base64 alphabet at index `n`. -/
def b64c (n : Nat) : Char := b64Alphabet.getD n 'A'

/-- `base64.StdEncoding.EncodeToString` on a byte sequence (each byte is
reduced mod 256, matching the u8 domain). -/
def base64StdEncode : List Nat → String
  | [] => ""
  | [a] =>
    let a := a % 256
    String.mk [b64c (a / 4), b64c ((a % 4) * 16), '=', '=']
  | [a, b] =>
    let a := a % 256
    let b := b % 256
    String.mk [b64c (a / 4), b64c ((a % 4) * 16 + b / 16), b64c ((b % 16) * 4), '=']
  | a :: b :: c :: rest =>
    let a := a % 256
    let b := b % 256
    let c := c % 256
    String.mk [b64c (a / 4), b64c ((a % 4) * 16 + b / 16),
               b64c ((b % 16) * 4 + c / 64), b64c (c % 64)]
      ++ base64StdEncode rest

/-- An SSH public key as the auth code consumes it: `key.Type()` and the
marshaled wire bytes `key.Marshal()`. -/
structure PublicKey where
  keyType : String
  marshaled : List Nat
deriving DecidableEq

/-- The fingerprint string built at every auth site:
`key.Type() + " " + base64.StdEncoding.EncodeToString(key.Marshal())`. -/
def fingerprint (key : PublicKey) : String :=
  key.keyType ++ " " ++ base64StdEncode key.marshaled

/-! ### Git access levels and Hook.AuthRepo (pkg/server/server.go) -/

/-- `git.AccessLevel` of the wish middleware. -/
inductive AccessLevel where
  | NoAccess
  | ReadOnlyAccess
  | ReadWriteAccess
  | AdminAccess
deriving DecidableEq

/-- `server.Hook`: carries the one repository name the server is bound to. -/
structure Hook where
  repoName : String

/-- `auth.GetUserByKey`: the registry lookup used by `AuthRepo`
(takes the read lock in the source; pure lookup here). -/
def GetUserByKey (data : Registry) (k : String) : Option User :=
  lookupUser data k

/-- `Hook.AuthRepo` (server.go): reject foreign repo names, reject unknown
fingerprints, then switch on the stored permission string. -/
def AuthRepo (h : Hook) (repo : String) (key : PublicKey) (data : Registry) :
    AccessLevel :=
  if repo != h.repoName then
    .NoAccess
  else
    let userKey := fingerprint key
    match GetUserByKey data userKey with
    | none => .NoAccess
    | some user =>
      if user.perm == "read" then .ReadOnlyAccess
      else if user.perm == "write" then .ReadWriteAccess
      else if user.perm == "admin" then .AdminAccess
      else .NoAccess

/-- The permission-to-access mapping in the SPEC's words (section 4.4):
read to ReadOnly, write to ReadWrite, admin to Admin, anything else to
NoAccess.  Kept separate from `AuthRepo` so the code's switch can be
compared against it. -/
def specPermToAccess (perm : String) : AccessLevel :=
  if perm == "read" then .ReadOnlyAccess
  else if perm == "write" then .ReadWriteAccess
  else if perm == "admin" then .AdminAccess
  else .NoAccess

/-! ### Connection-time authentication (auth.AuthHandler) -/

/-- `logger.ConfigData`: `{Public bool; DefaultPerm string}`. -/
structure ConfigData where
  public : Bool
  defaultPerm : String
deriving DecidableEq

/-- The fields of `ssh.Context` the handler reads: `ctx.User()` and
`ctx.RemoteAddr().String()`. -/
structure SshCtx where
  user : String
  remoteAddr : String

/-- Outcome of one `AuthHandler` call: the returned Bool, the in-memory
registry after the call, and the log messages emitted. -/
structure AuthOutcome where
  ok : Bool
  data : Registry
  log : List String
deriving DecidableEq

/-- `auth.AuthHandler` (auth.go).  `saveOk` stands for the success of the
disk write performed by `SaveUsers` (os.Create plus JSON encode); the
registry insert happens before that write, so a failed save leaves the
fresh guest in memory while the connection is rejected. -/
def AuthHandler (ctx : SshCtx) (key : PublicKey) (data : Registry)
    (config : ConfigData) (saveOk : Bool) : AuthOutcome :=
  let userKey := fingerprint key
  match lookupUser data userKey with
  | some _user =>
    { ok := true, data := data, log := ["User authenticated"] }
  | none =>
    let username := ctx.user ++ "@" ++ ctx.remoteAddr
    if !config.public then
      { ok := false, data := data, log := ["Unauthorized user tried to connect"] }
    else
      let log1 := ["New user connecting"]
      let perms := if config.defaultPerm == "" then "none" else config.defaultPerm
      let log2 :=
        if config.defaultPerm == "" then log1 ++ ["No default permissions in file"]
        else log1
      let newData := insertUser data userKey { name := username, perm := perms }
      if saveOk then
        { ok := true, data := newData, log := log2 }
      else
        { ok := false, data := newData, log := log2 ++ ["Could not edit users file"] }

/-! ### Bootstrap (auth.EnsureHostAdmin) -/

/-- `strings.Fields` restricted over the characters of the string:
maximal runs of non-whitespace characters. -/
def fieldsAux : List Char → List Char → List String
  | [], acc => if acc.isEmpty then [] else [String.mk acc.reverse]
  | c :: cs, acc =>
    if c.isWhitespace then
      if acc.isEmpty then fieldsAux cs []
      else String.mk acc.reverse :: fieldsAux cs []
    else
      fieldsAux cs (c :: acc)

/-- `strings.Fields`. -/
def goFields (s : String) : List String := fieldsAux s.toList []

/-- `strings.TrimSpace`. -/
def goTrimSpace (s : String) : String :=
  String.mk (((s.toList.dropWhile Char.isWhitespace).reverse.dropWhile
    Char.isWhitespace).reverse)

/-- The probe order of `EnsureHostAdmin`: ed25519, then RSA, then ECDSA
public key files under the home directory. -/
def keyProbePaths (homeDir : String) : List String :=
  [homeDir ++ "/.ssh/id_ed25519.pub",
   homeDir ++ "/.ssh/id_rsa.pub",
   homeDir ++ "/.ssh/id_ecdsa.pub"]

/-- The probe loop of `EnsureHostAdmin`: the first path whose
`os.ReadFile` succeeds stops the scan (even when the file is empty). -/
def findHostKey (fs : String → Option String) : List String → Option String
  | [] => none
  | p :: rest =>
    match fs p with
    | some content => some content
    | none => findHostKey fs rest

/-- `auth.EnsureHostAdmin` (auth.go): when no admin exists, probe the
well-known key files, take the first two whitespace fields of the found
key as the fingerprint, and upsert a `"host (admin)"` identity with
permission `"admin"`.  `fs` maps a path to its readable content. -/
def EnsureHostAdmin (data : Registry) (fs : String → Option String)
    (homeDir : String) : Registry :=
  if hasAdmin data then data
  else
    let hostKey := (findHostKey fs (keyProbePaths homeDir)).getD ""
    if hostKey == "" then data
    else
      let keyParts := goFields (goTrimSpace hostKey)
      if keyParts.length < 2 then data
      else
        let normalizedKey := keyParts.getD 0 "" ++ " " ++ keyParts.getD 1 ""
        insertUser data normalizedKey { name := "host (admin)", perm := "admin" }

/-! ### Watcher reload (logger.handleFileEvent, auth.InitUsers) -/

/-- What reading and parsing the users file yields in `auth.InitUsers`:
the file can be absent, fail to parse, or parse to a registry. -/
inductive FileRead where
  | missing
  | parseError
  | content (r : Registry)

/-- The effect of `auth.InitUsers` (hence of `auth.ReloadUsers`) on the
in-memory registry: a missing file installs an empty map, a parse error
leaves memory untouched (the error is returned), and a parsed file
REPLACES the whole map (`Data = newData`). -/
def initUsersResult (inMem : Registry) (fr : FileRead) : Registry :=
  match fr with
  | .missing => []
  | .parseError => inMem
  | .content r => r

/-- The shared state the watcher callbacks update. -/
structure WatchedState where
  users : Registry
  config : ConfigData

/-- `logger.handleFileEvent` restricted to Write events, dispatching on
the file name as `reloadModifiedFile` does: `users.json` goes through the
registered users-reload callback (`auth.ReloadUsers`), `config.json`
through `ReloadConfig`; `confRead` is the parse outcome of the config
file (`none` when open or decode fails, leaving the config untouched). -/
def handleWriteEvent (st : WatchedState) (fileName : String)
    (usersRead : FileRead) (confRead : Option ConfigData) : WatchedState :=
  if fileName == "users.json" then
    { st with users := initUsersResult st.users usersRead }
  else if fileName == "config.json" then
    match confRead with
    | some c => { st with config := c }
    | none => st
  else st

/-! ### Admin-console permission cycle (tui dashboard) -/

/-- The cycle order used by the console commands. -/
def permsList : List String := ["none", "read", "write", "admin"]

/-- The index loop of `cycleUserPerm`: `idx` starts at 0 and becomes
`(i+1) % 4` at the first `perms[i]` equal to the current permission; an
unrecognized permission leaves `idx = 0`. -/
def permCycleLoop : List String → Nat → String → Nat
  | [], _, _ => 0
  | p :: ps, i, perm =>
    if p == perm then (i + 1) % 4 else permCycleLoop ps (i + 1) perm

/-- The permission one console cycle step assigns, `perms[idx]`. -/
def goNextPerm (perm : String) : String :=
  permsList.getD (permCycleLoop permsList 0 perm) ""

/-- Modelled from the spec: `auth.GetAllUsers` is not under src/ (only its
callers are); section 4.3 specifies `get_all()` as a snapshot of the
whole fingerprint-to-identity map. -/
def GetAllUsers (data : Registry) : Registry := data

/-- Modelled from the spec: `auth.UpdateUserPerm` is not under src/ (only
its caller is); sections 4.3 and 4.5 specify console mutations as an
`upsert` through the registry write path changing the permission of the
existing identity. -/
def UpdateUserPerm (data : Registry) (k : String) (newPerm : String) : Registry :=
  data.map (fun p => if p.1 == k then (p.1, { p.2 with perm := newPerm }) else p)

/-- `cycleUserPerm` of the admin console: look the user up in the
snapshot, advance its permission one step along
none, read, write, admin, none. -/
def cycleUserPerm (data : Registry) (k : String) : Registry :=
  match lookupUser (GetAllUsers data) k with
  | none => data
  | some user => UpdateUserPerm data k (goNextPerm user.perm)

/-! ### Lock discipline (auth.go dataMu, logger.go configMu)

Each function that touches the shared `Data` map or the `Config` value is
embedded as the list, in program order, of the shared-state accesses it
can perform, each tagged with the lock held at that point, transliterated
from the `dataMu` and `configMu` acquisitions in the source. -/

/-- Which piece of shared state an access touches. -/
inductive SharedVar where
  | usersData
  | configData
deriving DecidableEq

/-- Read or write. -/
inductive AccessKind where
  | readAcc
  | writeAcc
deriving DecidableEq

/-- The lock held while the access runs. -/
inductive LockHeld where
  | noLock
  | readLock
  | writeLock
deriving DecidableEq

/-- One access to the shared registry or config. -/
structure StateAccess where
  var : SharedVar
  kind : AccessKind
  lock : LockHeld
deriving DecidableEq

/-- An access satisfies the spec's gate when some lock is held. -/
def accessGated (a : StateAccess) : Bool :=
  match a.lock with
  | .noLock => false
  | .readLock => true
  | .writeLock => true

/-- `auth.GetUserByKey`: `Data[key]` under `dataMu.RLock`. -/
def getUserByKeyAccesses : List StateAccess :=
  [⟨.usersData, .readAcc, .readLock⟩]

/-- `auth.SaveUsers`: serializes `Data` under `dataMu.RLock`. -/
def saveUsersAccesses : List StateAccess :=
  [⟨.usersData, .readAcc, .readLock⟩]

/-- `auth.InitUsers`: both the empty-map install and the
`Data = newData` replacement run under `dataMu.Lock`. -/
def initUsersAccesses : List StateAccess :=
  [⟨.usersData, .writeAcc, .writeLock⟩]

/-- `auth.GetUser`: `Data[userKey]` with no lock held. -/
def getUserAccesses : List StateAccess :=
  [⟨.usersData, .readAcc, .noLock⟩]

/-- `auth.AuthHandler`: the existence lookup `Data[userKey]` is done with
no lock; in the unknown-key branch the config getters hold
`configMu.RLock`, the guest insert holds `dataMu.Lock`, and `SaveUsers`
re-reads `Data` under `dataMu.RLock`. -/
def authHandlerAccesses : List StateAccess :=
  [⟨.usersData, .readAcc, .noLock⟩,
   ⟨.configData, .readAcc, .readLock⟩,
   ⟨.configData, .readAcc, .readLock⟩,
   ⟨.usersData, .writeAcc, .writeLock⟩,
   ⟨.usersData, .readAcc, .readLock⟩]

/-- `auth.EnsureHostAdmin`: the has-admin scan over `Data` runs with no
lock; the host-admin insert holds `dataMu.Lock`; `SaveUsers` reads under
`dataMu.RLock`. -/
def ensureHostAdminAccesses : List StateAccess :=
  [⟨.usersData, .readAcc, .noLock⟩,
   ⟨.usersData, .writeAcc, .writeLock⟩,
   ⟨.usersData, .readAcc, .readLock⟩]

/-- `logger.GetConfigPublic`: read under `configMu.RLock`. -/
def getConfigPublicAccesses : List StateAccess :=
  [⟨.configData, .readAcc, .readLock⟩]

/-- `logger.GetConfigDefaultPerm`: read under `configMu.RLock`. -/
def getConfigDefaultPermAccesses : List StateAccess :=
  [⟨.configData, .readAcc, .readLock⟩]

/-- `logger.SetConfig`: write under `configMu.Lock`. -/
def setConfigAccesses : List StateAccess :=
  [⟨.configData, .writeAcc, .writeLock⟩]

/-! ### Concrete instances used to exercise the theorems -/

/-- A sample key (marshaled bytes 0,1,2; base64 "AAEC"). -/
def c1Key : PublicKey := ⟨"ssh-ed25519", [0, 1, 2]⟩

/-- A registry holding `c1Key` with permission write. -/
def c1Reg : Registry := [(fingerprint c1Key, ⟨"bob", "write"⟩)]

/-- A sample key unknown to the sample registries. -/
def c2Key : PublicKey := ⟨"ssh-rsa", [7, 7]⟩

/-- A sample key for the guest-creation scenario. -/
def c3Key : PublicKey := ⟨"ssh-ed25519", [1]⟩

/-- Home directory for the bootstrap scenarios. -/
def c5HomeDir : String := "/home/h"

/-- Content of the discoverable ed25519 public key file. -/
def c5KeyFile : String := "ssh-ed25519 AAAAC3Nza host@box"

/-- A filesystem where only the ed25519 key file exists. -/
def c5Fs : String → Option String := fun p =>
  if p == "/home/h/.ssh/id_ed25519.pub" then some c5KeyFile else none

/-- A registry already holding the host key as a non-admin. -/
def c5Data : Registry := [("ssh-ed25519 AAAAC3Nza", ⟨"guest", "read"⟩)]

/-- Entry A of the reconciliation scenario. -/
def c6A : String × User := ("kA", ⟨"A", "read"⟩)

/-- Entry B of the reconciliation scenario. -/
def c6B : String × User := ("kB", ⟨"B", "write"⟩)

/-- A registry holding one admin identity under key k1. -/
def c7Data : Registry := [("k1", ⟨"alice", "admin"⟩)]

/-- A sample key for the failed-save scenario. -/
def c8Key : PublicKey := ⟨"ssh-ecdsa", [3, 4, 5, 6]⟩

/-- A sample key for the retained-guest scenario. -/
def c10Key : PublicKey := ⟨"ssh-ed25519", [9, 9, 9]⟩

/-! ### Helper lemmas on the registry embedding -/

theorem find?_overwrite (k : String) (u : User) :
    ∀ data : Registry, data.any (fun p => p.1 == k) = true →
      (data.map (fun p => if p.1 == k then (k, u) else p)).find?
        (fun p => p.1 == k) = some (k, u)
  | [], h => by simp at h
  | hd :: tl, h => by
    by_cases hhd : (hd.1 == k) = true
    · simp only [List.map_cons, hhd, if_true]
      exact List.find?_cons_of_pos _ (by simp)
    · have hhd' : (hd.1 == k) = false := by simpa using hhd
      have htl : tl.any (fun p => p.1 == k) = true := by
        simpa [List.any_cons, hhd'] using h
      simp only [List.map_cons, hhd', if_false, Bool.false_eq_true]
      rw [List.find?_cons_of_neg _ (by simp [hhd'])]
      exact find?_overwrite k u tl htl

theorem lookupUser_insertUser (data : Registry) (k : String) (u : User) :
    lookupUser (insertUser data k u) k = some u := by
  unfold insertUser lookupUser
  by_cases hany : data.any (fun p => p.1 == k) = true
  · rw [if_pos hany, find?_overwrite k u data hany]
    rfl
  · have hnone : data.find? (fun p => p.1 == k) = none := by
      rw [List.find?_eq_none]
      intro x hx hpx
      exact hany (List.any_eq_true.mpr ⟨x, hx, hpx⟩)
    rw [if_neg hany, List.find?_append, hnone]
    simp

theorem lookupUser_updateUserPerm (k newPerm : String) (data : Registry) :
    lookupUser (UpdateUserPerm data k newPerm) k =
      (lookupUser data k).map (fun u => { u with perm := newPerm }) := by
  induction data with
  | nil => rfl
  | cons hd tl ih =>
    unfold UpdateUserPerm lookupUser
    rw [List.map_cons]
    by_cases hhd : (hd.1 == k) = true
    · simp [List.find?, hhd]
    · have hhd' : (hd.1 == k) = false := by simpa using hhd
      simp only [List.find?, hhd', if_false, Bool.false_eq_true]
      simpa [UpdateUserPerm, lookupUser] using ih

theorem cycleUserPerm_lookup (data : Registry) (k : String) (u : User)
    (h : lookupUser data k = some u) :
    lookupUser (cycleUserPerm data k) k = some ⟨u.name, goNextPerm u.perm⟩ := by
  unfold cycleUserPerm GetAllUsers
  rw [h]
  rw [lookupUser_updateUserPerm, h]
  rfl

theorem hasAdmin_insertUser_admin (data : Registry) (k : String) :
    hasAdmin (insertUser data k ⟨"host (admin)", "admin"⟩) = true := by
  have h := lookupUser_insertUser data k ⟨"host (admin)", "admin"⟩
  unfold lookupUser at h
  rw [Option.map_eq_some'] at h
  obtain ⟨p, hfind, hval⟩ := h
  have hmem : p ∈ insertUser data k ⟨"host (admin)", "admin"⟩ :=
    List.mem_of_find?_eq_some hfind
  unfold hasAdmin
  rw [List.any_eq_true]
  refine ⟨p, hmem, ?_⟩
  rw [hval]
  decide

theorem authHandler_ok_of_found (ctx : SshCtx) (key : PublicKey)
    (data : Registry) (config : ConfigData) (saveOk : Bool) (u : User)
    (hfound : lookupUser data (fingerprint key) = some u) :
    (AuthHandler ctx key data config saveOk).ok = true := by
  simp [AuthHandler, hfound]

/-! ### Claim theorems -/

/-- Claim C1: for every repository name and every key, `Hook.AuthRepo`
returns NoAccess when the requested repo differs from the bound one,
returns NoAccess when the fingerprint is not registered, and otherwise
maps the stored permission through read to ReadOnly, write to ReadWrite,
admin to Admin, with every other string (the empty string and the literal
none included) going to NoAccess. -/
theorem authRepo_decision (h : Hook) (repo : String) (key : PublicKey)
    (data : Registry) :
    (repo ≠ h.repoName → AuthRepo h repo key data = .NoAccess) ∧
    (GetUserByKey data (fingerprint key) = none →
      AuthRepo h repo key data = .NoAccess) ∧
    (∀ u, GetUserByKey data (fingerprint key) = some u → repo = h.repoName →
      AuthRepo h repo key data = specPermToAccess u.perm) ∧
    (specPermToAccess "read" = .ReadOnlyAccess ∧
     specPermToAccess "write" = .ReadWriteAccess ∧
     specPermToAccess "admin" = .AdminAccess ∧
     ∀ s : String, s ≠ "read" → s ≠ "write" → s ≠ "admin" →
       specPermToAccess s = .NoAccess) := by
  refine ⟨?_, ?_, ?_, rfl, rfl, rfl, ?_⟩
  · intro hne
    simp [AuthRepo, bne, hne]
  · intro hnone
    by_cases heq : repo = h.repoName
    · simp [AuthRepo, bne, heq, hnone]
    · simp [AuthRepo, bne, heq]
  · intro u hsome heq
    subst heq
    simp only [AuthRepo, bne_self_eq_false, Bool.false_eq_true, if_false,
      hsome]
    rfl
  · intro s h1 h2 h3
    simp [specPermToAccess, h1, h2, h3]

/-- Witness for C1 at concrete inputs: a foreign repo name, an unknown
key, a registered write user, and a garbage permission string. -/
theorem authRepo_decision_witness :
    AuthRepo ⟨"r.git"⟩ "other.git" c1Key c1Reg = .NoAccess ∧
    AuthRepo ⟨"r.git"⟩ "r.git" c2Key c1Reg = .NoAccess ∧
    AuthRepo ⟨"r.git"⟩ "r.git" c1Key c1Reg = specPermToAccess "write" ∧
    specPermToAccess "garbage" = .NoAccess := by
  refine ⟨(authRepo_decision ⟨"r.git"⟩ "other.git" c1Key c1Reg).1 (by decide),
    (authRepo_decision ⟨"r.git"⟩ "r.git" c2Key c1Reg).2.1 (by decide),
    (authRepo_decision ⟨"r.git"⟩ "r.git" c1Key c1Reg).2.2.1
      ⟨"bob", "write"⟩ (by decide) rfl,
    (authRepo_decision ⟨"r.git"⟩ "r.git" c1Key c1Reg).2.2.2.2.2.2
      "garbage" (by decide) (by decide) (by decide)⟩

/-- Claim C2: with `public = false`, a key whose fingerprint is absent
from the registry is rejected and the in-memory registry is unchanged,
for every claimed username and remote address. -/
theorem authHandler_public_gate (ctx : SshCtx) (key : PublicKey)
    (data : Registry) (config : ConfigData) (saveOk : Bool)
    (hpub : config.public = false)
    (habs : lookupUser data (fingerprint key) = none) :
    (AuthHandler ctx key data config saveOk).ok = false ∧
    (AuthHandler ctx key data config saveOk).data = data := by
  simp [AuthHandler, habs, hpub]

/-- Witness for C2: an unknown key against a private server. -/
theorem authHandler_public_gate_witness :
    (AuthHandler ⟨"eve", "1.2.3.4"⟩ c2Key c1Reg ⟨false, "read"⟩ true).ok
      = false ∧
    (AuthHandler ⟨"eve", "1.2.3.4"⟩ c2Key c1Reg ⟨false, "read"⟩ true).data
      = c1Reg :=
  authHandler_public_gate ⟨"eve", "1.2.3.4"⟩ c2Key c1Reg ⟨false, "read"⟩
    true rfl (by decide)

/-- Claim C3: with `public = true` and default permission read, an
unknown key claiming username alice from 10.0.0.5 is accepted, a registry
entry named alice at 10.0.0.5 with permission read is created for its
fingerprint, and a subsequent `AuthRepo` for that key grants ReadOnly;
with an unset (empty) default permission the new identity instead gets
permission none and the missing-default error is logged. -/
theorem authHandler_guest_creation (key : PublicKey) (data : Registry)
    (habs : lookupUser data (fingerprint key) = none) :
    ((AuthHandler ⟨"alice", "10.0.0.5"⟩ key data ⟨true, "read"⟩ true).ok
       = true ∧
     lookupUser (AuthHandler ⟨"alice", "10.0.0.5"⟩ key data
         ⟨true, "read"⟩ true).data (fingerprint key)
       = some ⟨"alice@10.0.0.5", "read"⟩ ∧
     (∀ repoN : String, AuthRepo ⟨repoN⟩ repoN key
        (AuthHandler ⟨"alice", "10.0.0.5"⟩ key data ⟨true, "read"⟩
          true).data = .ReadOnlyAccess)) ∧
    (lookupUser (AuthHandler ⟨"alice", "10.0.0.5"⟩ key data
         ⟨true, ""⟩ true).data (fingerprint key)
       = some ⟨"alice@10.0.0.5", "none"⟩ ∧
     "No default permissions in file" ∈
       (AuthHandler ⟨"alice", "10.0.0.5"⟩ key data ⟨true, ""⟩ true).log) := by
  have hread : (AuthHandler ⟨"alice", "10.0.0.5"⟩ key data ⟨true, "read"⟩
      true).data = insertUser data (fingerprint key)
        ⟨"alice@10.0.0.5", "read"⟩ := by
    simp [AuthHandler, habs]
  have hnoneD : (AuthHandler ⟨"alice", "10.0.0.5"⟩ key data ⟨true, ""⟩
      true).data = insertUser data (fingerprint key)
        ⟨"alice@10.0.0.5", "none"⟩ := by
    simp [AuthHandler, habs]
  refine ⟨⟨?_, ?_, ?_⟩, ?_, ?_⟩
  · simp [AuthHandler, habs]
  · rw [hread]
    exact lookupUser_insertUser data (fingerprint key) ⟨"alice@10.0.0.5", "read"⟩
  · intro repoN
    rw [hread]
    simp only [AuthRepo, bne_self_eq_false, Bool.false_eq_true, if_false,
      GetUserByKey]
    rw [lookupUser_insertUser data (fingerprint key)
      ⟨"alice@10.0.0.5", "read"⟩]
    rfl
  · rw [hnoneD]
    exact lookupUser_insertUser data (fingerprint key) ⟨"alice@10.0.0.5", "none"⟩
  · simp [AuthHandler, habs]

/-- Witness for C3: the unknown key `c3Key` against an empty registry. -/
theorem authHandler_guest_creation_witness :
    (AuthHandler ⟨"alice", "10.0.0.5"⟩ c3Key [] ⟨true, "read"⟩ true).ok
      = true ∧
    lookupUser (AuthHandler ⟨"alice", "10.0.0.5"⟩ c3Key []
        ⟨true, "read"⟩ true).data (fingerprint c3Key)
      = some ⟨"alice@10.0.0.5", "read"⟩ ∧
    AuthRepo ⟨"r.git"⟩ "r.git" c3Key
      (AuthHandler ⟨"alice", "10.0.0.5"⟩ c3Key [] ⟨true, "read"⟩ true).data
      = .ReadOnlyAccess ∧
    lookupUser (AuthHandler ⟨"alice", "10.0.0.5"⟩ c3Key [] ⟨true, ""⟩
        true).data (fingerprint c3Key) = some ⟨"alice@10.0.0.5", "none"⟩ := by
  have h := authHandler_guest_creation c3Key [] (by decide)
  exact ⟨h.1.1, h.1.2.1, h.1.2.2 "r.git", h.2.1⟩

/-- Claim C4: a key whose fingerprint is registered is always accepted,
whatever the stored permission and the public flag, and the registry is
left unchanged. -/
theorem authHandler_known_key (ctx : SshCtx) (key : PublicKey)
    (data : Registry) (config : ConfigData) (saveOk : Bool) (u : User)
    (hfound : lookupUser data (fingerprint key) = some u) :
    (AuthHandler ctx key data config saveOk).ok = true ∧
    (AuthHandler ctx key data config saveOk).data = data := by
  simp [AuthHandler, hfound]

/-- Witness for C4: a registered user with permission none on a private
server is still admitted at the SSH layer. -/
theorem authHandler_known_key_witness :
    (AuthHandler ⟨"x", "9.9.9.9"⟩ c1Key
       [(fingerprint c1Key, ⟨"bob", "none"⟩)] ⟨false, ""⟩ false).ok
      = true ∧
    (AuthHandler ⟨"x", "9.9.9.9"⟩ c1Key
       [(fingerprint c1Key, ⟨"bob", "none"⟩)] ⟨false, ""⟩ false).data
      = [(fingerprint c1Key, ⟨"bob", "none"⟩)] :=
  authHandler_known_key ⟨"x", "9.9.9.9"⟩ c1Key
    [(fingerprint c1Key, ⟨"bob", "none"⟩)] ⟨false, ""⟩ false
    ⟨"bob", "none"⟩ (by decide)

/-- Claim C8: when the disk write fails during auto-registration of an
unknown key, the connection is rejected, while the freshly inserted guest
stays in the in-memory registry. -/
theorem authHandler_save_failure (ctx : SshCtx) (key : PublicKey)
    (data : Registry) (config : ConfigData)
    (habs : lookupUser data (fingerprint key) = none)
    (hpub : config.public = true) :
    (AuthHandler ctx key data config false).ok = false ∧
    (AuthHandler ctx key data config false).data =
      insertUser data (fingerprint key)
        ⟨ctx.user ++ "@" ++ ctx.remoteAddr,
         if config.defaultPerm == "" then "none" else config.defaultPerm⟩ := by
  constructor
  · simp [AuthHandler, habs, hpub]
  · simp [AuthHandler, habs, hpub]

/-- Witness for C8: a failed save on a public server rejects the guest but
keeps it in memory. -/
theorem authHandler_save_failure_witness :
    (AuthHandler ⟨"guest", "8.8.8.8"⟩ c8Key [] ⟨true, "read"⟩ false).ok
      = false ∧
    (AuthHandler ⟨"guest", "8.8.8.8"⟩ c8Key [] ⟨true, "read"⟩ false).data
      = insertUser [] (fingerprint c8Key) ⟨"guest@8.8.8.8", "read"⟩ := by
  have h := authHandler_save_failure ⟨"guest", "8.8.8.8"⟩ c8Key []
    ⟨true, "read"⟩ (by decide) rfl
  exact ⟨h.1, by simpa using h.2⟩

/-- Claim C10: after a failed save rejected an unknown key, the guest
entry kept in memory makes a second authentication attempt with the same
key succeed. -/
theorem authHandler_retained_guest_readmits (ctx ctx2 : SshCtx)
    (key : PublicKey) (data : Registry) (config config2 : ConfigData)
    (saveOk2 : Bool)
    (habs : lookupUser data (fingerprint key) = none)
    (hpub : config.public = true) :
    (AuthHandler ctx key data config false).ok = false ∧
    lookupUser (AuthHandler ctx key data config false).data
      (fingerprint key) ≠ none ∧
    (AuthHandler ctx2 key (AuthHandler ctx key data config false).data
      config2 saveOk2).ok = true := by
  have hdata : (AuthHandler ctx key data config false).data =
      insertUser data (fingerprint key)
        ⟨ctx.user ++ "@" ++ ctx.remoteAddr,
         if config.defaultPerm == "" then "none" else config.defaultPerm⟩ := by
    simp [AuthHandler, habs, hpub]
  have hlook := lookupUser_insertUser data (fingerprint key)
    ⟨ctx.user ++ "@" ++ ctx.remoteAddr,
     if config.defaultPerm == "" then "none" else config.defaultPerm⟩
  refine ⟨by simp [AuthHandler, habs, hpub], ?_, ?_⟩
  · rw [hdata, hlook]
    simp
  · rw [hdata]
    exact authHandler_ok_of_found ctx2 key _ config2 saveOk2 _ hlook

/-- Witness for C10: the rejected guest `c10Key` is admitted on retry. -/
theorem authHandler_retained_guest_readmits_witness :
    (AuthHandler ⟨"g", "5.5.5.5"⟩ c10Key [] ⟨true, "write"⟩ false).ok
      = false ∧
    (AuthHandler ⟨"g", "5.5.5.5"⟩ c10Key
      (AuthHandler ⟨"g", "5.5.5.5"⟩ c10Key [] ⟨true, "write"⟩ false).data
      ⟨true, "write"⟩ true).ok = true := by
  have h := authHandler_retained_guest_readmits ⟨"g", "5.5.5.5"⟩
    ⟨"g", "5.5.5.5"⟩ c10Key [] ⟨true, "write"⟩ ⟨true, "write"⟩ true
    (by decide) rfl
  exact ⟨h.1, h.2.2⟩

/-- Counterexample to C5 as stated: the registry holds no admin and a
valid key file is discoverable, yet `EnsureHostAdmin` does not add a new
identity — the key is already registered as a non-admin, so the upsert
overwrites that entry and the registry size is unchanged. -/
theorem ensureHostAdmin_no_new_identity :
    hasAdmin c5Data = false ∧
    findHostKey c5Fs (keyProbePaths c5HomeDir) = some c5KeyFile ∧
    2 ≤ (goFields (goTrimSpace c5KeyFile)).length ∧
    (EnsureHostAdmin c5Data c5Fs c5HomeDir).length = c5Data.length ∧
    EnsureHostAdmin c5Data c5Fs c5HomeDir =
      [("ssh-ed25519 AAAAC3Nza", ⟨"host (admin)", "admin"⟩)] := by
  refine ⟨rfl, rfl, by decide, rfl, rfl⟩

/-- Claim C5 (amended): starting with no admin and a discoverable key
file of at least two whitespace-separated fields, `EnsureHostAdmin`
upserts an identity keyed by the first two fields of that file (first
probed file wins, comment discarded) with display name host (admin) and
permission admin, after which `hasAdmin` is true; the upsert adds exactly
one new identity when that key was not already registered (it overwrites
otherwise); if an admin already exists the registry is unchanged. -/
theorem ensureHostAdmin_bootstrap (data : Registry)
    (fs : String → Option String) (homeDir : String) (content : String)
    (hno : hasAdmin data = false)
    (hfind : findHostKey fs (keyProbePaths homeDir) = some content)
    (hfields : 2 ≤ (goFields (goTrimSpace content)).length) :
    (EnsureHostAdmin data fs homeDir =
      insertUser data
        ((goFields (goTrimSpace content)).getD 0 "" ++ " " ++
         (goFields (goTrimSpace content)).getD 1 "")
        ⟨"host (admin)", "admin"⟩ ∧
     lookupUser (EnsureHostAdmin data fs homeDir)
        ((goFields (goTrimSpace content)).getD 0 "" ++ " " ++
         (goFields (goTrimSpace content)).getD 1 "")
       = some ⟨"host (admin)", "admin"⟩ ∧
     hasAdmin (EnsureHostAdmin data fs homeDir) = true ∧
     (containsKey data
        ((goFields (goTrimSpace content)).getD 0 "" ++ " " ++
         (goFields (goTrimSpace content)).getD 1 "") = false →
       (EnsureHostAdmin data fs homeDir).length = data.length + 1)) ∧
    (∀ d2 : Registry, hasAdmin d2 = true → EnsureHostAdmin d2 fs homeDir = d2) := by
  have hcontent : (content == "") = false := by
    rcases hb : content == "" with _ | _
    · rfl
    · exfalso
      have hc : content = "" := by
        simpa using hb
      rw [hc] at hfields
      exact absurd hfields (by decide)
  have hlen : ¬ (goFields (goTrimSpace content)).length < 2 := by
    omega
  have hresult : EnsureHostAdmin data fs homeDir =
      insertUser data
        ((goFields (goTrimSpace content)).getD 0 "" ++ " " ++
         (goFields (goTrimSpace content)).getD 1 "")
        ⟨"host (admin)", "admin"⟩ := by
    simp [EnsureHostAdmin, hno, hfind, hcontent, hlen]
  refine ⟨⟨hresult, ?_, ?_, ?_⟩, ?_⟩
  · rw [hresult]
    exact lookupUser_insertUser _ _ _
  · rw [hresult]
    exact hasAdmin_insertUser_admin _ _
  · intro habsent
    unfold containsKey at habsent
    rw [hresult]
    simp only [insertUser, habsent, Bool.false_eq_true, if_false,
      List.length_append]
    rfl
  · intro d2 hd2
    simp [EnsureHostAdmin, hd2]

/-- Witness for the amended C5: bootstrap from an empty registry. -/
theorem ensureHostAdmin_bootstrap_witness :
    EnsureHostAdmin [] c5Fs c5HomeDir =
      [("ssh-ed25519 AAAAC3Nza", ⟨"host (admin)", "admin"⟩)] ∧
    hasAdmin (EnsureHostAdmin [] c5Fs c5HomeDir) = true ∧
    (EnsureHostAdmin [] c5Fs c5HomeDir).length = 1 ∧
    EnsureHostAdmin c7Data c5Fs c5HomeDir = c7Data := by
  have h := ensureHostAdmin_bootstrap [] c5Fs c5HomeDir c5KeyFile rfl rfl
    (by decide)
  refine ⟨?_, h.1.2.2.1, h.1.2.2.2 (by decide), h.2 c7Data (by decide)⟩
  have h1 := h.1.1
  rw [h1]
  decide

/-- Claim C6: a write event for the users file makes the reload callback
replace the whole in-memory registry with the parsed file content: from
in-memory entries A and B and a file holding only A, the map afterwards
holds exactly A and B is gone. -/
theorem watcher_reload_replaces (a b : String × User) (config : ConfigData)
    (confRead : Option ConfigData) (hne : b.1 ≠ a.1) :
    (handleWriteEvent ⟨[a, b], config⟩ "users.json" (.content [a])
       confRead).users = [a] ∧
    lookupUser (handleWriteEvent ⟨[a, b], config⟩ "users.json"
       (.content [a]) confRead).users b.1 = none ∧
    lookupUser (handleWriteEvent ⟨[a, b], config⟩ "users.json"
       (.content [a]) confRead).users a.1 = some a.2 := by
  have husers : (handleWriteEvent ⟨[a, b], config⟩ "users.json"
      (.content [a]) confRead).users = [a] := rfl
  refine ⟨husers, ?_, ?_⟩
  · rw [husers]
    have hba : (a.1 == b.1) = false := beq_eq_false_iff_ne.mpr (Ne.symm hne)
    simp [lookupUser, List.find?, hba]
  · rw [husers]
    simp [lookupUser, List.find?]

/-- Witness for C6: concrete entries kA and kB, file retaining only kA. -/
theorem watcher_reload_replaces_witness :
    (handleWriteEvent ⟨[c6A, c6B], ⟨true, "read"⟩⟩ "users.json"
       (.content [c6A]) none).users = [c6A] ∧
    lookupUser (handleWriteEvent ⟨[c6A, c6B], ⟨true, "read"⟩⟩ "users.json"
       (.content [c6A]) none).users c6B.1 = none :=
  ⟨(watcher_reload_replaces c6A c6B ⟨true, "read"⟩ none (by decide)).1,
   (watcher_reload_replaces c6A c6B ⟨true, "read"⟩ none (by decide)).2.1⟩

/-- Claim C7: one admin-console cycle advances a stored permission one
step along none, read, write, admin, none (so admin goes to none, none to
read, read to write, write to admin), and for an identity holding one of
those four values, four cycles restore the original permission. -/
theorem cycleUserPerm_spec (data : Registry) (k : String) (u : User)
    (h : lookupUser data k = some u) :
    (goNextPerm "none" = "read" ∧ goNextPerm "read" = "write" ∧
     goNextPerm "write" = "admin" ∧ goNextPerm "admin" = "none") ∧
    lookupUser (cycleUserPerm data k) k = some ⟨u.name, goNextPerm u.perm⟩ ∧
    (u.perm = "none" ∨ u.perm = "read" ∨ u.perm = "write" ∨
       u.perm = "admin" →
     lookupUser (cycleUserPerm (cycleUserPerm (cycleUserPerm
       (cycleUserPerm data k) k) k) k) k = some u) := by
  have h1 := cycleUserPerm_lookup data k u h
  have h2 := cycleUserPerm_lookup _ k _ h1
  have h3 := cycleUserPerm_lookup _ k _ h2
  have h4 := cycleUserPerm_lookup _ k _ h3
  refine ⟨by decide, h1, ?_⟩
  intro hperm
  rw [h4]
  obtain ⟨nm, pm⟩ := u
  rcases hperm with hp | hp | hp | hp <;>
    · simp only at hp
      subst hp
      rfl

/-- Witness for C7: the admin identity under k1 cycles to none and is
back to admin after four cycles. -/
theorem cycleUserPerm_spec_witness :
    lookupUser (cycleUserPerm c7Data "k1") "k1" = some ⟨"alice", "none"⟩ ∧
    lookupUser (cycleUserPerm (cycleUserPerm (cycleUserPerm
      (cycleUserPerm c7Data "k1") "k1") "k1") "k1") "k1"
      = some ⟨"alice", "admin"⟩ := by
  have h := cycleUserPerm_spec c7Data "k1" ⟨"alice", "admin"⟩ (by decide)
  refine ⟨?_, h.2.2 (Or.inr (Or.inr (Or.inr rfl)))⟩
  have h21 := h.2.1
  rw [show goNextPerm "admin" = "none" from by decide] at h21
  exact h21

/-- Claim C9 (refuted by the code): were every shared-state access gated
by the lock, each function's access list would satisfy `accessGated`
throughout; in fact the existence lookup in `AuthHandler`, the read in
`GetUser` and the admin scan in `EnsureHostAdmin` touch the users map
with no lock held, while the remaining accesses are gated. -/
theorem lock_gate_violations :
    authHandlerAccesses.all accessGated = false ∧
    getUserAccesses.all accessGated = false ∧
    ensureHostAdminAccesses.all accessGated = false ∧
    getUserByKeyAccesses.all accessGated = true ∧
    saveUsersAccesses.all accessGated = true ∧
    initUsersAccesses.all accessGated = true ∧
    getConfigPublicAccesses.all accessGated = true ∧
    getConfigDefaultPermAccesses.all accessGated = true ∧
    setConfigAccesses.all accessGated = true := by
  decide

end Gitport
